import Mathlib

/-!
Verification of the wallet risk-scoring pipeline (`risk_utils.py`).

Numeric values are embedded as rationals (`ℚ`). Pandas/NumPy missing values
(NaN) are embedded as `Option` where a computation can produce them; a cell
that can never be missing is a plain `ℚ`. Tables are lists of rows; a feature
table carries its list of column names, since the source branches on column
presence. Integer epoch timestamps are `ℤ` (seconds).
-/

/-- Minimum of a list of rationals (0 on the empty list; only used on
nonempty columns, mirroring `MinMaxScaler.fit` which sees every row). -/
def listMin : List ℚ → ℚ
  | [] => 0
  | x :: xs => xs.foldl min x

/-- Maximum of a list of rationals (0 on the empty list). -/
def listMax : List ℚ → ℚ
  | [] => 0
  | x :: xs => xs.foldl max x

/-- Arithmetic mean of a list of rationals; the empty list gives 0
(the source only takes means of nonempty selections except where noted). -/
def listMean (xs : List ℚ) : ℚ := xs.sum / xs.length

theorem foldl_min_le_init (l : List ℚ) (a : ℚ) : l.foldl min a ≤ a := by
  induction l generalizing a with
  | nil => simp
  | cons x xs ih =>
      calc (x :: xs).foldl min a = xs.foldl min (min a x) := rfl
        _ ≤ min a x := ih _
        _ ≤ a := min_le_left _ _

theorem foldl_min_le_mem (l : List ℚ) (a : ℚ) :
    ∀ y ∈ l, l.foldl min a ≤ y := by
  induction l generalizing a with
  | nil => intro y hy; simp at hy
  | cons x xs ih =>
      intro y hy
      rcases List.mem_cons.mp hy with h | h
      · subst h
        calc (y :: xs).foldl min a = xs.foldl min (min a y) := rfl
          _ ≤ min a y := foldl_min_le_init _ _
          _ ≤ y := min_le_right _ _
      · exact ih (min a x) y h

theorem init_le_foldl_max (l : List ℚ) (a : ℚ) : a ≤ l.foldl max a := by
  induction l generalizing a with
  | nil => simp
  | cons x xs ih =>
      calc a ≤ max a x := le_max_left _ _
        _ ≤ xs.foldl max (max a x) := ih _
        _ = (x :: xs).foldl max a := rfl

theorem mem_le_foldl_max (l : List ℚ) (a : ℚ) :
    ∀ y ∈ l, y ≤ l.foldl max a := by
  induction l generalizing a with
  | nil => intro y hy; simp at hy
  | cons x xs ih =>
      intro y hy
      rcases List.mem_cons.mp hy with h | h
      · subst h
        calc y ≤ max a y := le_max_right _ _
          _ ≤ xs.foldl max (max a y) := init_le_foldl_max _ _
          _ = (y :: xs).foldl max a := rfl
      · exact ih (max a x) y h

theorem listMin_le_mem (l : List ℚ) (y : ℚ) (hy : y ∈ l) : listMin l ≤ y := by
  cases l with
  | nil => simp at hy
  | cons x xs =>
      rcases List.mem_cons.mp hy with h | h
      · subst h; exact foldl_min_le_init xs y
      · exact foldl_min_le_mem xs x y h

theorem mem_le_listMax (l : List ℚ) (y : ℚ) (hy : y ∈ l) : y ≤ listMax l := by
  cases l with
  | nil => simp at hy
  | cons x xs =>
      rcases List.mem_cons.mp hy with h | h
      · subst h; exact init_le_foldl_max xs y
      · exact mem_le_foldl_max xs x y h

theorem list_sum_nonneg (l : List ℚ) (h : ∀ x ∈ l, 0 ≤ x) : 0 ≤ l.sum := by
  induction l with
  | nil => simp
  | cons x xs ih =>
      simp only [List.sum_cons]
      have hx := h x (List.mem_cons_self x xs)
      have hxs := ih (fun y hy => h y (List.mem_cons_of_mem x hy))
      linarith

theorem list_sum_le_length (l : List ℚ) (h : ∀ x ∈ l, x ≤ 1) :
    l.sum ≤ (l.length : ℚ) := by
  induction l with
  | nil => simp
  | cons x xs ih =>
      simp only [List.sum_cons, List.length_cons]
      have hx := h x (List.mem_cons_self x xs)
      have hxs := ih (fun y hy => h y (List.mem_cons_of_mem x hy))
      push_cast
      linarith

theorem listMean_mem_unit (l : List ℚ) (h0 : ∀ x ∈ l, 0 ≤ x)
    (h1 : ∀ x ∈ l, x ≤ 1) : 0 ≤ listMean l ∧ listMean l ≤ 1 := by
  unfold listMean
  rcases Nat.eq_zero_or_pos l.length with hlen | hlen
  · simp [hlen]
  · have hlpos : (0 : ℚ) < (l.length : ℚ) := by exact_mod_cast hlen
    constructor
    · exact div_nonneg (list_sum_nonneg l h0) (le_of_lt hlpos)
    · rw [div_le_one hlpos]
      exact list_sum_le_length l h1

/-! ### Score Combiner (`calculate_final_risk_score`, lines 158-163)

`np.round` with 0 decimals rounds half to even (banker's rounding); we embed
it on `ℚ` as `roundHalfEven`. -/

/-- Round a rational to the nearest integer, ties to the even integer,
matching NumPy `Series.round(0)`. -/
def roundHalfEven (q : ℚ) : ℤ :=
  let f := ⌊q⌋
  let r := q - (f : ℚ)
  if r < 1/2 then f
  else if 1/2 < r then f + 1
  else if f % 2 = 0 then f else f + 1

theorem roundHalfEven_bounds (q : ℚ) (h0 : 0 ≤ q) (h1 : q ≤ 1000) :
    0 ≤ roundHalfEven q ∧ roundHalfEven q ≤ 1000 := by
  unfold roundHalfEven
  have hf0 : (0 : ℤ) ≤ ⌊q⌋ := Int.le_floor.mpr (by exact_mod_cast h0)
  have hf1 : ⌊q⌋ ≤ 1000 := by
    have := Int.floor_le_floor h1
    simpa using this
  have hfloor : (⌊q⌋ : ℚ) ≤ q := Int.floor_le q
  by_cases hlt : q - (⌊q⌋ : ℚ) < 1/2
  · simp only [hlt, if_true]
    exact ⟨hf0, hf1⟩
  · by_cases hgt : 1/2 < q - (⌊q⌋ : ℚ)
    · simp only [hlt, if_false, hgt, if_true]
      refine ⟨by omega, ?_⟩
      -- here q ≥ ⌊q⌋ + 1/2 > ⌊q⌋, so ⌊q⌋ < 1000 since q ≤ 1000
      have hq : (⌊q⌋ : ℚ) + 1/2 < q := by linarith
      have : (⌊q⌋ : ℚ) < 1000 := by linarith
      have hlt1000 : ⌊q⌋ < 1000 := by exact_mod_cast this
      omega
    · simp only [hlt, if_false, hgt, if_false]
      have heq : q - (⌊q⌋ : ℚ) = 1/2 := le_antisymm (not_lt.mp hgt) (not_lt.mp hlt)
      have : (⌊q⌋ : ℚ) < 1000 := by linarith
      have hlt1000 : ⌊q⌋ < 1000 := by exact_mod_cast this
      by_cases hpar : ⌊q⌋ % 2 = 0
      · simp only [hpar, if_true]; exact ⟨hf0, hf1⟩
      · simp only [hpar, if_false]; omega

/-- `calculate_final_risk_score`: start from the base score, multiply by 1.5
for anomalous wallets, multiply by the wallet's cluster risk adjustment,
clamp to [0, 1000], round to integer (per-wallet form of lines 160-163). -/
def calculate_final_risk_score (base : ℚ) (is_anomaly : Bool) (adj : ℚ) : ℤ :=
  let s1 := if is_anomaly then base * (3/2) else base
  let s2 := s1 * adj
  roundHalfEven (min (max s2 0) 1000)

/-- Claim C1: for every wallet row with base score, anomaly flag and cluster
adjustment populated, `calculate_final_risk_score` is an integer in [0, 1000]
equal to base × (1.5 if anomaly else 1) × clusterRiskAdjustment, clamped to
[0, 1000] exactly once at the end and then rounded to the nearest integer
(ties to even, as NumPy rounds). -/
theorem final_risk_score_spec (base : ℚ) (a : Bool) (adj : ℚ) :
    calculate_final_risk_score base a adj
        = roundHalfEven (min (max (base * (if a then (3:ℚ)/2 else 1) * adj) 0) 1000)
      ∧ 0 ≤ calculate_final_risk_score base a adj
      ∧ calculate_final_risk_score base a adj ≤ 1000 := by
  have hmax : (0 : ℚ) ≤ max ((if a then base * (3/2) else base) * adj) 0 :=
    le_max_right _ _
  have h0 : (0 : ℚ) ≤ min (max ((if a then base * (3/2) else base) * adj) 0) 1000 :=
    le_min hmax (by norm_num)
  have h1 : min (max ((if a then base * (3/2) else base) * adj) 0) 1000 ≤ 1000 :=
    min_le_right _ _
  have hb := roundHalfEven_bounds _ h0 h1
  refine ⟨?_, hb.1, hb.2⟩
  unfold calculate_final_risk_score
  cases a <;> simp

/-! ### Feature Engine temporal features (lines 76-86) -/

/-- Minimum of a list of integers (0 on the empty list). -/
def listMinZ : List ℤ → ℤ
  | [] => 0
  | x :: xs => xs.foldl min x

/-- Maximum of a list of integers (0 on the empty list). -/
def listMaxZ : List ℤ → ℤ
  | [] => 0
  | x :: xs => xs.foldl max x

/-- Temporal features of a wallet from its transactions' epoch timestamps
(seconds): `(avg_time_between_txns_hr, activity_span_days,
transaction_frequency)`. With more than one transaction the source sorts by
timestamp, averages successive differences (converted to hours), and floors
the whole-day span at 1; otherwise it returns the defaults `(0, 1, 1)`. -/
def temporalFeatures (tss : List ℤ) : ℚ × ℤ × ℚ :=
  if 1 < tss.length then
    let sorted := tss.insertionSort (· ≤ ·)
    let diffs := (sorted.zip sorted.tail).map (fun p => ((p.2 - p.1 : ℤ) : ℚ))
    let avg_hr := (diffs.sum / (diffs.length : ℚ)) / 3600
    let span := max ((listMaxZ tss - listMinZ tss) / 86400) 1
    (avg_hr, span, (tss.length : ℚ) / (span : ℚ))
  else (0, 1, 1)

/-- Claim C7: a wallet with exactly one transaction gets
`avg_time_between_txns_hr = 0`, `activity_span_days = 1`,
`transaction_frequency = 1`; and any wallet with at least one transaction has
`activity_span_days ≥ 1` (never 0). -/
theorem temporal_defaults_and_span_floor (tss : List ℤ) :
    (tss.length = 1 → temporalFeatures tss = (0, 1, 1))
      ∧ (1 ≤ tss.length → 1 ≤ (temporalFeatures tss).2.1) := by
  constructor
  · intro h
    unfold temporalFeatures
    rw [h]
    norm_num
  · intro _
    unfold temporalFeatures
    by_cases h : 1 < tss.length
    · simp only [h, if_true]
      exact le_max_right _ _
    · simp only [h, if_false]
      exact le_refl 1

/-- Witness for C7 at a one-element timestamp list and a two-element one. -/
theorem temporal_defaults_and_span_floor_witness :
    temporalFeatures [100] = (0, 1, 1) ∧ 1 ≤ (temporalFeatures [100, 4000]).2.1 :=
  ⟨(temporal_defaults_and_span_floor [100]).1 (by decide),
   (temporal_defaults_and_span_floor [100, 4000]).2 (by decide)⟩

/-! ### Feature Engine (`create_advanced_wallet_features`, lines 42-102)

A cleaned transaction row. The embedded table always carries the `from`,
`to`, `value` and `timeStamp` columns (the presence checks the source makes
for `from`/`to` are then true); the presence of the gas columns, of
`isError` and of `functionName` — the branches at lines 69-75 and 90-99 —
is modelled by the Booleans `hasGas`, `hasErr`, `hasFunc` passed to
`walletFeatures`. -/
structure Txn where
  fromAddr : String
  toAddr : String
  value : ℚ
  timeStamp : ℤ
  gasUsed : ℚ
  gasPrice : ℚ
  isError : ℚ
  functionName : String
deriving DecidableEq

/-- Pandas `Series.std()` with its default `ddof = 1`: the sample standard
deviation is NaN (`none`) for fewer than two values; otherwise it is the
square root of the sample variance returned here (definedness and NaN-ness
are exactly those of the variance, which is what the claims concern). -/
def value_std (vs : List ℚ) : Option ℚ :=
  if 2 ≤ vs.length then
    some ((vs.map (fun v => (v - listMean vs) ^ 2)).sum / ((vs.length : ℚ) - 1))
  else none

/-- Pandas `Series.nunique()`: number of distinct values. -/
def nunique (l : List String) : ℕ := l.dedup.length

/-- Maximum of a list of naturals (0 on the empty list). -/
def listMaxN (l : List ℕ) : ℕ := l.foldr max 0

/-- Count of the most frequent value (`value_counts(...).iloc[0]` numerator). -/
def maxCount (l : List String) : ℕ := listMaxN (l.dedup.map (fun s => l.count s))

/-- One WalletFeatureVector row. `value_std` is `Option ℚ` because pandas can
leave it NaN; every other feature is total. -/
structure WalletFeatures where
  total_transactions : ℕ
  sent_transactions : ℕ
  received_transactions : ℕ
  send_receive_ratio : ℚ
  total_value_sent : ℚ
  total_value_received : ℚ
  avg_transaction_value : ℚ
  max_transaction_value : ℚ
  value_std : Option ℚ
  zero_value_ratio : ℚ
  avg_gas_used : ℚ
  total_gas_cost : ℚ
  error_rate : ℚ
  avg_time_between_txns_hr : ℚ
  activity_span_days : ℤ
  transaction_frequency : ℚ
  unique_recipients : ℕ
  unique_senders : ℕ
  recipient_concentration : ℚ
  unique_functions : ℕ
  contract_complexity : ℚ
deriving DecidableEq

/-- Per-wallet body of the loop at lines 53-100. `wcol` is the wallet
identifier getter chosen at line 45 (`wallet_address` when that column is
populated, else `from`); `wtx` is the wallet's partition, `sent` its rows
with `from = w`, and `recv` is filtered from the WHOLE table `df`, not from
the partition (line 55). -/
def walletFeatures (df : List Txn) (wcol : Txn → String)
    (hasGas hasErr hasFunc : Bool) (w : String) : WalletFeatures :=
  let wtx := df.filter (fun t => wcol t = w)
  let sent := wtx.filter (fun t => t.fromAddr = w)
  let recv := df.filter (fun t => t.toAddr = w)
  let vals := wtx.map (fun t => t.value)
  let temporal := temporalFeatures (wtx.map (fun t => t.timeStamp))
  let uniqRec := if 0 < sent.length then nunique (sent.map (fun t => t.toAddr)) else 0
  let names := wtx.map (fun t => t.functionName)
  { total_transactions := wtx.length
    sent_transactions := sent.length
    received_transactions := recv.length
    send_receive_ratio := (sent.length : ℚ) / ((max recv.length 1 : ℕ) : ℚ)
    total_value_sent := (sent.map (fun t => t.value)).sum
    total_value_received := (recv.map (fun t => t.value)).sum
    avg_transaction_value := listMean vals
    max_transaction_value := listMax vals
    value_std := value_std vals
    zero_value_ratio := listMean (vals.map (fun v => if v = 0 then 1 else 0))
    avg_gas_used := if hasGas then listMean (wtx.map (fun t => t.gasUsed)) else 0
    total_gas_cost := if hasGas then (wtx.map (fun t => t.gasUsed * t.gasPrice)).sum else 0
    error_rate := if hasGas then (if hasErr then listMean (wtx.map (fun t => t.isError)) else 0) else 0
    avg_time_between_txns_hr := temporal.1
    activity_span_days := temporal.2.1
    transaction_frequency := temporal.2.2
    unique_recipients := uniqRec
    unique_senders := if 0 < recv.length then nunique (recv.map (fun t => t.fromAddr)) else 0
    recipient_concentration := (sent.length : ℚ) / ((max uniqRec 1 : ℕ) : ℚ)
    unique_functions := if hasFunc then nunique names else 0
    contract_complexity :=
      if hasFunc then
        (if names.length ≠ 0 then 1 - (maxCount names : ℚ) / (names.length : ℚ) else 0)
      else 0 }

theorem filter_length_split (df : List Txn) (p q : Txn → Prop)
    [DecidablePred p] [DecidablePred q] :
    (df.filter (fun t => decide (p t))).length
      = ((df.filter (fun t => decide (q t))).filter (fun t => decide (p t))).length
        + ((df.filter (fun t => decide (¬ q t))).filter (fun t => decide (p t))).length := by
  induction df with
  | nil => simp
  | cons x xs ih =>
      by_cases hq : q x <;> by_cases hp : p x <;>
        simp [List.filter_cons, hq, hp, ih] <;> omega

/-- Claim C6: `received_transactions` counts rows of the ENTIRE cleaned table
whose `to` equals the wallet (decomposed below into in-partition and
out-of-partition rows, both counted), `send_receive_ratio` is
sent / max(received, 1), and a wallet never appearing in `to` gets
`received_transactions = 0` and ratio = sent / 1. -/
theorem received_counts_whole_table (df : List Txn) (wcol : Txn → String)
    (hasGas hasErr hasFunc : Bool) (w : String) :
    (walletFeatures df wcol hasGas hasErr hasFunc w).received_transactions
        = (df.filter (fun t => t.toAddr = w)).length
    ∧ (walletFeatures df wcol hasGas hasErr hasFunc w).received_transactions
        = ((df.filter (fun t => wcol t = w)).filter (fun t => t.toAddr = w)).length
          + ((df.filter (fun t => ¬ wcol t = w)).filter (fun t => t.toAddr = w)).length
    ∧ (walletFeatures df wcol hasGas hasErr hasFunc w).send_receive_ratio
        = ((walletFeatures df wcol hasGas hasErr hasFunc w).sent_transactions : ℚ)
          / ((max (walletFeatures df wcol hasGas hasErr hasFunc w).received_transactions 1 : ℕ) : ℚ)
    ∧ ((∀ t ∈ df, ¬ t.toAddr = w) →
        (walletFeatures df wcol hasGas hasErr hasFunc w).received_transactions = 0
        ∧ (walletFeatures df wcol hasGas hasErr hasFunc w).send_receive_ratio
            = ((walletFeatures df wcol hasGas hasErr hasFunc w).sent_transactions : ℚ)) := by
  refine ⟨rfl, ?_, rfl, ?_⟩
  · exact filter_length_split df (fun t => t.toAddr = w) (fun t => wcol t = w)
  · intro h
    have hrec0 : (walletFeatures df wcol hasGas hasErr hasFunc w).received_transactions = 0 := by
      show (df.filter (fun t => t.toAddr = w)).length = 0
      rw [List.length_eq_zero]
      rw [List.filter_eq_nil_iff]
      intro a ha
      simpa using h a ha
    refine ⟨hrec0, ?_⟩
    have hratio : (walletFeatures df wcol hasGas hasErr hasFunc w).send_receive_ratio
        = ((walletFeatures df wcol hasGas hasErr hasFunc w).sent_transactions : ℚ)
          / ((max (walletFeatures df wcol hasGas hasErr hasFunc w).received_transactions 1 : ℕ) : ℚ) := rfl
    rw [hratio, hrec0]
    norm_num

/-- Witness for C6 at a one-row table whose only row has `to = "b"`:
the wallet `"a"` never receives, so received = 0 and ratio = sent. -/
theorem received_counts_whole_table_witness :
    (walletFeatures [⟨"a", "b", 5, 100, 0, 0, 0, "f"⟩] (fun t => t.fromAddr)
        true true true "a").received_transactions = 0
    ∧ (walletFeatures [⟨"a", "b", 5, 100, 0, 0, 0, "f"⟩] (fun t => t.fromAddr)
        true true true "a").send_receive_ratio
        = ((walletFeatures [⟨"a", "b", 5, 100, 0, 0, 0, "f"⟩] (fun t => t.fromAddr)
            true true true "a").sent_transactions : ℚ) :=
  (received_counts_whole_table [⟨"a", "b", 5, 100, 0, 0, 0, "f"⟩]
    (fun t => t.fromAddr) true true true "a").2.2.2 (by decide)

/-- Counterexample to claim C3 as stated: a wallet with exactly one
transaction has `value_std` missing (pandas sample std with `ddof = 1` of a
single value is NaN), so not every numeric feature is defined after the
Feature Engine stage. -/
theorem value_std_single_txn_missing :
    (walletFeatures [⟨"a", "b", 5, 100, 0, 0, 0, "f"⟩] (fun t => t.fromAddr)
        true true true "a").value_std = none := by
  decide

/-- Claim C3 (amended): every feature other than `value_std` is total, and
`value_std` is defined exactly for wallets with at least two transactions —
a wallet with exactly one transaction keeps a missing `value_std` (NaN)
after the Feature Engine stage. -/
theorem value_std_definedness (df : List Txn) (wcol : Txn → String)
    (hasGas hasErr hasFunc : Bool) (w : String) :
    (2 ≤ (walletFeatures df wcol hasGas hasErr hasFunc w).total_transactions →
      ((walletFeatures df wcol hasGas hasErr hasFunc w).value_std).isSome = true)
    ∧ ((walletFeatures df wcol hasGas hasErr hasFunc w).total_transactions = 1 →
      (walletFeatures df wcol hasGas hasErr hasFunc w).value_std = none) := by
  have hlen : ((df.filter (fun t => wcol t = w)).map (fun t => t.value)).length
      = (df.filter (fun t => wcol t = w)).length := List.length_map _ _
  constructor
  · intro h
    show (value_std ((df.filter (fun t => wcol t = w)).map (fun t => t.value))).isSome = true
    unfold value_std
    rw [if_pos]
    · rfl
    · rw [hlen]; exact h
  · intro h
    show value_std ((df.filter (fun t => wcol t = w)).map (fun t => t.value)) = none
    unfold value_std
    rw [if_neg]
    rw [hlen]
    have : (df.filter (fun t => wcol t = w)).length = 1 := h
    omega

/-- Witness for C3 (amended) at a two-transaction wallet and a
one-transaction wallet. -/
theorem value_std_definedness_witness :
    ((walletFeatures [⟨"a", "b", 5, 100, 0, 0, 0, "f"⟩, ⟨"a", "c", 7, 200, 0, 0, 0, "g"⟩]
        (fun t => t.fromAddr) true true true "a").value_std).isSome = true
    ∧ (walletFeatures [⟨"x", "b", 5, 100, 0, 0, 0, "f"⟩] (fun t => t.fromAddr)
        true true true "x").value_std = none :=
  ⟨(value_std_definedness [⟨"a", "b", 5, 100, 0, 0, 0, "f"⟩, ⟨"a", "c", 7, 200, 0, 0, 0, "g"⟩]
      (fun t => t.fromAddr) true true true "a").1 (by decide),
   (value_std_definedness [⟨"x", "b", 5, 100, 0, 0, 0, "f"⟩]
      (fun t => t.fromAddr) true true true "x").2 (by decide)⟩

/-! ### Base Risk Scorer (`calculate_advanced_risk_score`, lines 104-135)

A feature table: the column names (everything except `wallet_id`, line 107)
and one total row valuation per wallet. Min–max scaling is per column over
the whole table, exactly `MinMaxScaler.fit_transform`: a constant column
scales to 0 (sklearn replaces a zero range by 1). Rationals have no ±∞, so
the `replace([inf, -inf], 0)` of line 108 is the identity here. -/
structure FTable where
  cols : List String
  rows : List (String → ℚ)

/-- The values of column `c` down the table. -/
def colVals (t : FTable) (c : String) : List ℚ := t.rows.map (fun r => r c)

/-- Min–max scale one value given the column's min and max. -/
def scaleVal (lo hi x : ℚ) : ℚ := if hi = lo then 0 else (x - lo) / (hi - lo)

/-- The scaled value of column `c` in row `r` (`features_scaled`, line 110). -/
def scaledVal (t : FTable) (c : String) (r : String → ℚ) : ℚ :=
  scaleVal (listMin (colVals t c)) (listMax (colVals t c)) (r c)

/-- The five RiskComponent groups with their weights (lines 112-118):
0.20, 0.25, 0.20, 0.15, 0.20. -/
def risk_components : List (List String × ℚ) :=
  [(["total_transactions", "total_value_sent", "max_transaction_value"], 1/5),
   (["send_receive_ratio", "recipient_concentration", "transaction_frequency"], 1/4),
   (["avg_gas_used", "total_gas_cost", "error_rate"], 1/5),
   (["avg_time_between_txns_hr"], 3/20),
   (["unique_recipients", "unique_senders", "unique_functions", "contract_complexity"], 1/5)]

/-- One component's weighted score for row `r` (lines 120-126): mean of the
available scaled features times the weight; 0 when no feature is available. -/
def componentScore (t : FTable) (r : String → ℚ) (fs : List String) (w : ℚ) : ℚ :=
  if fs.filter (fun f => f ∈ t.cols) = [] then 0
  else listMean ((fs.filter (fun f => f ∈ t.cols)).map (fun f => scaledVal t f r)) * w

/-- The pre-boost base score of row `r` (line 128). -/
def base_score (t : FTable) (r : String → ℚ) : ℚ :=
  (risk_components.map (fun p => componentScore t r p.1 p.2)).sum

/-- First boost (line 130): scaled `error_rate` above 0.1 multiplies by 1.3. -/
def boost1 (t : FTable) (r : String → ℚ) (b : ℚ) : ℚ :=
  if "error_rate" ∈ t.cols ∧ 1/10 < scaledVal t "error_rate" r then b * (13/10) else b

/-- Second boost (line 131): scaled `zero_value_ratio` above 0.5 multiplies by 1.2. -/
def boost2 (t : FTable) (r : String → ℚ) (b : ℚ) : ℚ :=
  if "zero_value_ratio" ∈ t.cols ∧ 1/2 < scaledVal t "zero_value_ratio" r then b * (6/5) else b

/-- Third boost (line 132): scaled `transaction_frequency` above 0.95 multiplies by 1.4. -/
def boost3 (t : FTable) (r : String → ℚ) (b : ℚ) : ℚ :=
  if "transaction_frequency" ∈ t.cols ∧ 19/20 < scaledVal t "transaction_frequency" r then b * (7/5) else b

/-- Base score after the three boosts, applied in source order. -/
def boosted_score (t : FTable) (r : String → ℚ) : ℚ :=
  boost3 t r (boost2 t r (boost1 t r (base_score t r)))

/-- The per-wallet base risk scores (line 135): boosted score times 1000,
capped above at 1000; no lower clamp. -/
def calculate_advanced_risk_score (t : FTable) : List ℚ :=
  t.rows.map (fun r => min (boosted_score t r * 1000) 1000)

theorem scaledVal_unit (t : FTable) (r : String → ℚ) (hr : r ∈ t.rows)
    (c : String) : 0 ≤ scaledVal t c r ∧ scaledVal t c r ≤ 1 := by
  have hmem : r c ∈ colVals t c := List.mem_map_of_mem (fun r => r c) hr
  have hlo := listMin_le_mem _ _ hmem
  have hhi := mem_le_listMax _ _ hmem
  unfold scaledVal scaleVal
  by_cases h : listMax (colVals t c) = listMin (colVals t c)
  · rw [if_pos h]
    norm_num
  · rw [if_neg h]
    have hle : listMin (colVals t c) ≤ listMax (colVals t c) := le_trans hlo hhi
    have hlt : listMin (colVals t c) < listMax (colVals t c) :=
      lt_of_le_of_ne hle (fun he => h he.symm)
    have hpos : 0 < listMax (colVals t c) - listMin (colVals t c) := by linarith
    constructor
    · exact div_nonneg (by linarith) (le_of_lt hpos)
    · rw [div_le_one hpos]
      linarith

theorem componentScore_bounds (t : FTable) (r : String → ℚ) (hr : r ∈ t.rows)
    (fs : List String) (w : ℚ) (hw : 0 ≤ w) :
    0 ≤ componentScore t r fs w ∧ componentScore t r fs w ≤ w := by
  unfold componentScore
  by_cases h : fs.filter (fun f => f ∈ t.cols) = []
  · rw [if_pos h]
    exact ⟨le_refl 0, hw⟩
  · rw [if_neg h]
    have hmean := listMean_mem_unit ((fs.filter (fun f => f ∈ t.cols)).map
        (fun f => scaledVal t f r))
      (by intro x hx
          rcases List.mem_map.mp hx with ⟨f, _, rfl⟩
          exact (scaledVal_unit t r hr f).1)
      (by intro x hx
          rcases List.mem_map.mp hx with ⟨f, _, rfl⟩
          exact (scaledVal_unit t r hr f).2)
    constructor
    · exact mul_nonneg hmean.1 hw
    · calc listMean _ * w ≤ 1 * w := by
            exact mul_le_mul_of_nonneg_right hmean.2 hw
        _ = w := one_mul w

/-- Claim C8: the five RiskComponent weights sum to exactly 1, and the
pre-boost base value of every wallet row — the sum of the five weighted
component means over min–max-scaled features, an absent component
contributing 0 — lies in [0, 1]. -/
theorem weights_sum_one_and_base_in_unit (t : FTable) :
    ((risk_components.map (fun p => p.2)).sum = 1)
    ∧ ∀ r ∈ t.rows, 0 ≤ base_score t r ∧ base_score t r ≤ 1 := by
  constructor
  · norm_num [risk_components]
  · intro r hr
    have h1 := componentScore_bounds t r hr
      ["total_transactions", "total_value_sent", "max_transaction_value"] (1/5) (by norm_num)
    have h2 := componentScore_bounds t r hr
      ["send_receive_ratio", "recipient_concentration", "transaction_frequency"] (1/4) (by norm_num)
    have h3 := componentScore_bounds t r hr
      ["avg_gas_used", "total_gas_cost", "error_rate"] (1/5) (by norm_num)
    have h4 := componentScore_bounds t r hr
      ["avg_time_between_txns_hr"] (3/20) (by norm_num)
    have h5 := componentScore_bounds t r hr
      ["unique_recipients", "unique_senders", "unique_functions", "contract_complexity"] (1/5) (by norm_num)
    unfold base_score
    simp only [risk_components, List.map_cons, List.map_nil, List.sum_cons, List.sum_nil]
    constructor
    · linarith [h1.1, h2.1, h3.1, h4.1, h5.1]
    · linarith [h1.2, h2.2, h3.2, h4.2, h5.2]

/-- Witness for C8 at a one-row table over two feature columns. -/
theorem weights_sum_one_and_base_in_unit_witness :
    ((risk_components.map (fun p => p.2)).sum = 1)
    ∧ (0 ≤ base_score ⟨["total_transactions", "error_rate"], [fun _ => 3]⟩ (fun _ => 3)
        ∧ base_score ⟨["total_transactions", "error_rate"], [fun _ => 3]⟩ (fun _ => 3) ≤ 1) :=
  ⟨(weights_sum_one_and_base_in_unit ⟨["total_transactions", "error_rate"], [fun _ => 3]⟩).1,
   (weights_sum_one_and_base_in_unit ⟨["total_transactions", "error_rate"], [fun _ => 3]⟩).2
     (fun _ => 3) (List.mem_singleton.mpr rfl)⟩

/-- Claim C5: on the min–max-scaled features the three conditional boosts are
applied in source order — scaled `error_rate` > 0.1 times 1.3, scaled
`zero_value_ratio` > 0.5 times 1.2, scaled `transaction_frequency` > 0.95
times 1.4 — and compose multiplicatively; a wallet satisfying the first two
conditions has its pre-clamp score multiplied by 1.56 = 39/25; the result is
multiplied by 1000 and capped above at 1000 with no lower clamp. -/
theorem boosts_multiplicative_and_cap (t : FTable) (r : String → ℚ) :
    boosted_score t r
        = base_score t r
          * (if "error_rate" ∈ t.cols ∧ 1/10 < scaledVal t "error_rate" r
             then 13/10 else 1)
          * (if "zero_value_ratio" ∈ t.cols ∧ 1/2 < scaledVal t "zero_value_ratio" r
             then 6/5 else 1)
          * (if "transaction_frequency" ∈ t.cols ∧ 19/20 < scaledVal t "transaction_frequency" r
             then 7/5 else 1)
    ∧ (("error_rate" ∈ t.cols ∧ 1/10 < scaledVal t "error_rate" r) →
       ("zero_value_ratio" ∈ t.cols ∧ 1/2 < scaledVal t "zero_value_ratio" r) →
        boosted_score t r
          = base_score t r * (39/25)
            * (if "transaction_frequency" ∈ t.cols ∧ 19/20 < scaledVal t "transaction_frequency" r
               then 7/5 else 1))
    ∧ calculate_advanced_risk_score t
        = t.rows.map (fun row => min (boosted_score t row * 1000) 1000) := by
  refine ⟨?_, ?_, rfl⟩
  · unfold boosted_score boost1 boost2 boost3
    split_ifs <;> ring
  · intro h1 h2
    unfold boosted_score boost1 boost2 boost3
    rw [if_pos h1, if_pos h2]
    split_ifs <;> ring

/-- Witness for C5: a two-row table where the second row's scaled
`error_rate` and `zero_value_ratio` are both 1, so the 1.3 and 1.2 boosts
both fire and compose to 1.56. -/
theorem boosts_multiplicative_and_cap_witness :
    boosted_score
        ⟨["error_rate", "zero_value_ratio"],
         [fun _ => 0, fun _ => 1]⟩ (fun _ => 1)
      = base_score
          ⟨["error_rate", "zero_value_ratio"],
           [fun _ => 0, fun _ => 1]⟩ (fun _ => 1) * (39/25)
        * (if "transaction_frequency" ∈ (⟨["error_rate", "zero_value_ratio"],
              [fun _ => 0, fun _ => 1]⟩ : FTable).cols
              ∧ 19/20 < scaledVal ⟨["error_rate", "zero_value_ratio"],
                  [fun _ => 0, fun _ => 1]⟩ "transaction_frequency" (fun _ => 1)
           then 7/5 else 1) :=
  (boosts_multiplicative_and_cap
      ⟨["error_rate", "zero_value_ratio"], [fun _ => 0, fun _ => 1]⟩
      (fun _ => 1)).2.1
    ⟨by decide, by norm_num [scaledVal, scaleVal, colVals, listMin, listMax, min_def, max_def]⟩
    ⟨by decide, by norm_num [scaledVal, scaleVal, colVals, listMin, listMax, min_def, max_def]⟩

/-- The feature columns that can influence the base risk score: the five
component feature lists plus `zero_value_ratio` (the only boost column not
already a component feature). -/
def score_relevant_cols : List String :=
  ["total_transactions", "total_value_sent", "max_transaction_value",
   "send_receive_ratio", "recipient_concentration", "transaction_frequency",
   "avg_gas_used", "total_gas_cost", "error_rate",
   "avg_time_between_txns_hr",
   "unique_recipients", "unique_senders", "unique_functions", "contract_complexity",
   "zero_value_ratio"]

theorem forall2_map_eq {α β γ : Type} {R : α → β → Prop} {l₁ : List α} {l₂ : List β}
    (h : List.Forall₂ R l₁ l₂) (f : α → γ) (g : β → γ)
    (hfg : ∀ a b, R a b → f a = g b) : l₁.map f = l₂.map g := by
  induction h with
  | nil => rfl
  | cons hr _ ih => simp only [List.map_cons, hfg _ _ hr, ih]

/-- Two wallet rows agreeing on every score-relevant column. -/
def RowAgree (r₁ r₂ : String → ℚ) : Prop := ∀ c ∈ score_relevant_cols, r₁ c = r₂ c

theorem colVals_congr (t₁ t₂ : FTable)
    (h : List.Forall₂ RowAgree t₁.rows t₂.rows) (c : String)
    (hc : c ∈ score_relevant_cols) : colVals t₁ c = colVals t₂ c :=
  forall2_map_eq h _ _ (fun _ _ hab => hab c hc)

theorem scaledVal_congr (t₁ t₂ : FTable)
    (h : List.Forall₂ RowAgree t₁.rows t₂.rows)
    (c : String) (hc : c ∈ score_relevant_cols)
    (r₁ r₂ : String → ℚ) (hr : RowAgree r₁ r₂) :
    scaledVal t₁ c r₁ = scaledVal t₂ c r₂ := by
  unfold scaledVal
  rw [colVals_congr t₁ t₂ h c hc, hr c hc]

theorem componentScore_congr (t₁ t₂ : FTable) (hcols : t₁.cols = t₂.cols)
    (h : List.Forall₂ RowAgree t₁.rows t₂.rows)
    (r₁ r₂ : String → ℚ) (hr : RowAgree r₁ r₂)
    (fs : List String) (hfs : ∀ f ∈ fs, f ∈ score_relevant_cols) (w : ℚ) :
    componentScore t₁ r₁ fs w = componentScore t₂ r₂ fs w := by
  unfold componentScore
  rw [hcols]
  have hmap : (fs.filter (fun f => f ∈ t₂.cols)).map (fun f => scaledVal t₁ f r₁)
      = (fs.filter (fun f => f ∈ t₂.cols)).map (fun f => scaledVal t₂ f r₂) :=
    List.map_congr_left (fun f hf =>
      scaledVal_congr t₁ t₂ h f (hfs f (List.mem_of_mem_filter hf)) r₁ r₂ hr)
  rw [hmap]

theorem base_score_congr (t₁ t₂ : FTable) (hcols : t₁.cols = t₂.cols)
    (h : List.Forall₂ RowAgree t₁.rows t₂.rows)
    (r₁ r₂ : String → ℚ) (hr : RowAgree r₁ r₂) :
    base_score t₁ r₁ = base_score t₂ r₂ := by
  have hsub : ∀ p ∈ risk_components, ∀ f ∈ p.1, f ∈ score_relevant_cols := by decide
  unfold base_score
  have hmap : risk_components.map (fun p => componentScore t₁ r₁ p.1 p.2)
      = risk_components.map (fun p => componentScore t₂ r₂ p.1 p.2) :=
    List.map_congr_left (fun p hp =>
      componentScore_congr t₁ t₂ hcols h r₁ r₂ hr p.1 (hsub p hp) p.2)
  rw [hmap]

theorem boosted_score_congr (t₁ t₂ : FTable) (hcols : t₁.cols = t₂.cols)
    (h : List.Forall₂ RowAgree t₁.rows t₂.rows)
    (r₁ r₂ : String → ℚ) (hr : RowAgree r₁ r₂) :
    boosted_score t₁ r₁ = boosted_score t₂ r₂ := by
  unfold boosted_score boost1 boost2 boost3
  rw [hcols, base_score_congr t₁ t₂ hcols h r₁ r₂ hr,
      scaledVal_congr t₁ t₂ h "error_rate" (by decide) r₁ r₂ hr,
      scaledVal_congr t₁ t₂ h "zero_value_ratio" (by decide) r₁ r₂ hr,
      scaledVal_congr t₁ t₂ h "transaction_frequency" (by decide) r₁ r₂ hr]

/-- Claim C10: the base risk score depends only on the five component feature
lists plus `zero_value_ratio` — two tables with the same columns whose rows
pairwise agree on those columns get identical scores for every wallet, since
min–max scaling is per column and no other column enters the weighted sum or
the boost conditions. -/
theorem score_depends_only_on_listed_features (t₁ t₂ : FTable)
    (hcols : t₁.cols = t₂.cols)
    (hrows : List.Forall₂ RowAgree t₁.rows t₂.rows) :
    calculate_advanced_risk_score t₁ = calculate_advanced_risk_score t₂ := by
  unfold calculate_advanced_risk_score
  exact forall2_map_eq hrows _ _ (fun r₁ r₂ hab => by
    rw [boosted_score_congr t₁ t₂ hcols hrows r₁ r₂ hab])

/-- Witness for C10: two one-row tables that differ only in the
score-irrelevant column `value_std` get the same score list. -/
theorem score_depends_only_on_listed_features_witness :
    calculate_advanced_risk_score
        ⟨["total_transactions", "value_std"],
         [fun c => if c = "value_std" then 5 else 1]⟩
      = calculate_advanced_risk_score
          ⟨["total_transactions", "value_std"],
           [fun c => if c = "value_std" then 99 else 1]⟩ :=
  score_depends_only_on_listed_features
    ⟨["total_transactions", "value_std"], [fun c => if c = "value_std" then 5 else 1]⟩
    ⟨["total_transactions", "value_std"], [fun c => if c = "value_std" then 99 else 1]⟩
    rfl
    (List.Forall₂.cons
      (by intro c hc; fin_cases hc <;> rfl)
      List.Forall₂.nil)

/-! ### Data Loader (`load_and_preprocess_data`, lines 11-40)

Raw CSV cells are strings or missing. `parseNum` stands for the numeric
parser of `pd.to_numeric`/`pd.to_datetime` (pandas internals, quantified
over). Each column operation of lines 27-38 is guarded by a presence check
in the source and so here; the `dropna(subset=['value'])` of line 39 is NOT
guarded and pandas raises `KeyError` when the subset column is absent. -/
inductive Cell where
  | str : String → Cell
  | num : ℚ → Cell
  | dt : ℚ → Cell
  | na : Cell
deriving DecidableEq

/-- A tabular dataset: column names and one valuation per row. Used both for
the raw input and the cleaned output. -/
structure RawTable where
  cols : List String
  rows : List (String → Cell)

/-- The canonical column list of lines 20-22. -/
def relevant_columns : List String :=
  ["from", "to", "value", "gas", "gasPrice", "gasUsed", "timeStamp", "isError",
   "txreceipt_status", "functionName", "wallet_address", "protocol_version",
   "methodId", "blockNumber"]

/-- Overwrite one column of a row. -/
def setCol (c : String) (v : Cell) (r : String → Cell) : String → Cell :=
  fun c2 => if c2 = c then v else r c2

/-- Transform column `c` of every row when the column is present, else leave
the rows untouched (the `if col in df_clean.columns` guards). -/
def mapColIf (cols : List String) (c : String) (f : Cell → Cell)
    (rows : List (String → Cell)) : List (String → Cell) :=
  if c ∈ cols then rows.map (fun r => setCol c (f (r c)) r) else rows

/-- `pd.to_datetime(..., unit='s')` on one cell: missing stays missing
(NaT), a parseable value becomes a point in time, an unparseable string
raises — which the loader does not catch. -/
def toDatetimeCell (parseNum : String → Option ℚ) : Cell → Except String Cell
  | Cell.str s =>
      match parseNum s with
      | some q => Except.ok (Cell.dt q)
      | none => Except.error "to_datetime: unparseable"
  | Cell.num q => Except.ok (Cell.dt q)
  | Cell.dt q => Except.ok (Cell.dt q)
  | Cell.na => Except.ok Cell.na

/-- `pd.to_numeric(..., errors='coerce')` on one cell: unparseable becomes
missing. (A datetime cell is mapped to missing; the pipeline never coerces
a column it has already converted to datetime.) -/
def toNumericCell (parseNum : String → Option ℚ) : Cell → Cell
  | Cell.str s =>
      match parseNum s with
      | some q => Cell.num q
      | none => Cell.na
  | Cell.num q => Cell.num q
  | Cell.dt _ => Cell.na
  | Cell.na => Cell.na

/-- `fillna(sentinel)` on one cell. -/
def fillnaCell (s : String) : Cell → Cell
  | Cell.na => Cell.str s
  | c => c

/-- Map a fallible cell transform over a list, failing on the first error. -/
def mapExcept (f : (String → Cell) → Except String (String → Cell)) :
    List (String → Cell) → Except String (List (String → Cell))
  | [] => Except.ok []
  | x :: xs =>
      match f x, mapExcept f xs with
      | Except.ok y, Except.ok ys => Except.ok (y :: ys)
      | Except.error e, _ => Except.error e
      | Except.ok _, Except.error e => Except.error e

/-- The `timeStamp` conversion of lines 27-28, guarded on column presence. -/
def loadStep1 (parseNum : String → Option ℚ) (raw : RawTable) :
    Except String (List (String → Cell)) :=
  if "timeStamp" ∈ relevant_columns.filter (fun c => c ∈ raw.cols) then
    mapExcept (fun r => (toDatetimeCell parseNum (r "timeStamp")).map
      (fun v => setCol "timeStamp" v r)) raw.rows
  else Except.ok raw.rows

/-- `load_and_preprocess_data` after the file has been read: trim to the
canonical columns (lines 23-24), run the guarded conversions and sentinel
fills (lines 27-38), then `dropna(subset=['value'])` (line 39), which
raises `KeyError` when `value` is not a column. -/
def load_and_preprocess_data (parseNum : String → Option ℚ) (raw : RawTable) :
    Except String RawTable :=
  let existing := relevant_columns.filter (fun c => c ∈ raw.cols)
  match loadStep1 parseNum raw with
  | Except.error e => Except.error e
  | Except.ok rows1 =>
    let rows2 := mapColIf existing "value" (toNumericCell parseNum) rows1
    let rows3 := mapColIf existing "functionName" (fillnaCell "unknown") rows2
    let rows4 := mapColIf existing "protocol_version" (fillnaCell "unknown") rows3
    let rows5 := mapColIf existing "methodId" (fillnaCell "0x00000000") rows4
    let rows6 := mapColIf existing "gas" (toNumericCell parseNum) rows5
    let rows7 := mapColIf existing "gasPrice" (toNumericCell parseNum) rows6
    let rows8 := mapColIf existing "gasUsed" (toNumericCell parseNum) rows7
    let rows9 := mapColIf existing "blockNumber" (toNumericCell parseNum) rows8
    if "value" ∈ existing then
      Except.ok ⟨existing, rows9.filter (fun r => r "value" ≠ Cell.na)⟩
    else Except.error "KeyError: value"

theorem mapExcept_ok (f : (String → Cell) → Except String (String → Cell))
    (l : List (String → Cell)) (h : ∀ a ∈ l, ∃ b, f a = Except.ok b) :
    ∃ l2, mapExcept f l = Except.ok l2 := by
  induction l with
  | nil => exact ⟨[], rfl⟩
  | cons x xs ih =>
      rcases h x (List.mem_cons_self x xs) with ⟨b, hb⟩
      rcases ih (fun a ha => h a (List.mem_cons_of_mem x ha)) with ⟨l2, hl2⟩
      refine ⟨b :: l2, ?_⟩
      unfold mapExcept
      rw [hb, hl2]

/-- Counterexample to claim C2 as stated: on an input table that lacks the
`value` column, the loader does not complete — the unguarded
`dropna(subset=['value'])` raises `KeyError`. -/
theorem load_missing_value_column_raises :
    load_and_preprocess_data (fun _ => none)
        ⟨["from", "to"], [fun _ => Cell.na]⟩
      = Except.error "KeyError: value" := rfl

/-- Claim C2 (amended): every guarded column operation is skipped when its
column is absent and the loader completes whenever `value` is present (and
the timestamps, if that column is present, parse or are missing) — but the
final `dropna` on `value` is unguarded, so a table lacking `value` never
completes: it raises instead of locally degrading. -/
theorem load_value_guard (parseNum : String → Option ℚ) (raw : RawTable) :
    ("value" ∉ raw.cols →
      ∀ t, load_and_preprocess_data parseNum raw ≠ Except.ok t)
    ∧ ("value" ∈ raw.cols →
       ("timeStamp" ∈ raw.cols →
         ∀ r ∈ raw.rows, ∃ v, toDatetimeCell parseNum (r "timeStamp") = Except.ok v) →
       ∃ t, load_and_preprocess_data parseNum raw = Except.ok t
         ∧ t.cols = relevant_columns.filter (fun c => c ∈ raw.cols)) := by
  have hmem : "value" ∈ relevant_columns.filter (fun c => c ∈ raw.cols)
      ↔ "value" ∈ raw.cols := by
    rw [List.mem_filter]
    constructor
    · intro h
      simpa using h.2
    · intro h
      exact ⟨by decide, by simpa using h⟩
  constructor
  · intro hval t
    unfold load_and_preprocess_data
    cases h1 : loadStep1 parseNum raw with
    | error e => simp
    | ok rows1 =>
        simp only
        rw [if_neg (fun hc => hval (hmem.mp hc))]
        simp
  · intro hval hts
    have hstep : ∃ rows1, loadStep1 parseNum raw = Except.ok rows1 := by
      unfold loadStep1
      by_cases hc : "timeStamp" ∈ relevant_columns.filter (fun c => c ∈ raw.cols)
      · rw [if_pos hc]
        have hcraw : "timeStamp" ∈ raw.cols := by
          have := List.mem_filter.mp hc
          simpa using this.2
        apply mapExcept_ok
        intro a ha
        rcases hts hcraw a ha with ⟨v, hv⟩
        exact ⟨setCol "timeStamp" v a, by rw [hv]; rfl⟩
      · rw [if_neg hc]
        exact ⟨raw.rows, rfl⟩
    rcases hstep with ⟨rows1, h1⟩
    unfold load_and_preprocess_data
    rw [h1]
    simp only
    rw [if_pos (hmem.mpr hval)]
    exact ⟨_, rfl, rfl⟩

/-- Witness for C2 (amended): the value-less table from the counterexample
yields no `ok` result, while a table with a `value` column completes. -/
theorem load_value_guard_witness :
    (load_and_preprocess_data (fun _ => none) ⟨["from"], []⟩
        ≠ Except.ok ⟨[], []⟩)
    ∧ ∃ t, load_and_preprocess_data (fun _ => none)
          ⟨["value"], [fun _ => Cell.na]⟩ = Except.ok t
        ∧ t.cols = relevant_columns.filter (fun c => c ∈ (["value"] : List String)) :=
  ⟨(load_value_guard (fun _ => none) ⟨["from"], []⟩).1 (by decide) ⟨[], []⟩,
   (load_value_guard (fun _ => none) ⟨["value"], [fun _ => Cell.na]⟩).2 (by decide)
     (fun h => absurd h (by decide))⟩

/-! ### ML Refiner (`apply_ml_refinements`, lines 137-156) -/

/-- Mean `base_risk_score` of the members of cluster `l`
(`df.groupby('cluster')['base_risk_score'].mean()`, line 151). -/
def clusterMean (labels : List ℕ) (scores : List ℚ) (l : ℕ) : ℚ :=
  listMean (((labels.zip scores).filter (fun p => p.1 = l)).map (fun p => p.2))

/-- IEEE division for the quotient of line 151: division by zero never
yields a finite value (0/0 is NaN; in the pipeline the numerator is a
cluster mean of nonnegative scores, which is 0 whenever the population mean
is 0, so the `none` case is precisely NaN). -/
def divFloat (a b : ℚ) : Option ℚ := if b = 0 then none else some (a / b)

/-- Lines 151-152: each wallet's `cluster_risk_adjustment` is
(its cluster's mean base score) / (population mean base score). -/
def cluster_risk_adj (labels : List ℕ) (scores : List ℚ) : List (Option ℚ) :=
  labels.map (fun l => divFloat (clusterMean labels scores l) (listMean scores))

/-- Counterexample to claim C4 as stated: with every base score 0 the
population mean is 0 and every adjustment is NaN (undefined), and with
scores 0 and 4 in different clusters the first wallet's adjustment is 0 —
defined but not positive. -/
theorem cluster_adj_not_always_positive :
    cluster_risk_adj [0, 1] [0, 0] = [none, none]
    ∧ cluster_risk_adj [0, 1] [0, 4] = [some 0, some 2] := by
  constructor
  · norm_num [cluster_risk_adj, divFloat, clusterMean, listMean]
  · norm_num [cluster_risk_adj, divFloat, clusterMean, listMean]

/-- Claim C4 (amended): each wallet's `clusterRiskAdjustment` equals
(mean base score of its cluster) / (population mean base score); whenever
the population mean is positive it is defined and nonnegative for every
wallet (zero exactly for a cluster whose mean base score is 0), and when the
population mean base score is 0 it is not defined (NaN), not positive. -/
theorem cluster_adj_formula_and_sign (labels : List ℕ) (scores : List ℚ)
    (hpos : 0 < listMean scores) (hnn : ∀ s ∈ scores, 0 ≤ s) :
    cluster_risk_adj labels scores
        = labels.map (fun l => some (clusterMean labels scores l / listMean scores))
    ∧ ∀ a ∈ cluster_risk_adj labels scores, ∃ q, a = some q ∧ 0 ≤ q := by
  have hne : listMean scores ≠ 0 := ne_of_gt hpos
  constructor
  · unfold cluster_risk_adj divFloat
    exact List.map_congr_left (fun l _ => by rw [if_neg hne])
  · intro a ha
    rcases List.mem_map.mp ha with ⟨l, _, rfl⟩
    refine ⟨clusterMean labels scores l / listMean scores, ?_, ?_⟩
    · unfold divFloat
      rw [if_neg hne]
    · have hmem : ∀ x ∈ ((labels.zip scores).filter
          (fun p => p.1 = l)).map (fun p => p.2), 0 ≤ x := by
        intro x hx
        rcases List.mem_map.mp hx with ⟨p, hp, rfl⟩
        exact hnn p.2 (List.of_mem_zip (List.mem_of_mem_filter hp)).2
      have hcm : 0 ≤ clusterMean labels scores l :=
        div_nonneg (list_sum_nonneg _ hmem) (by positivity)
      exact div_nonneg hcm (le_of_lt hpos)

/-- Witness for C4 (amended) at clusters [0, 1] with base scores [2, 4]. -/
theorem cluster_adj_formula_and_sign_witness :
    cluster_risk_adj [0, 1] [2, 4]
      = ([0, 1] : List ℕ).map
          (fun l => some (clusterMean [0, 1] [2, 4] l / listMean [2, 4])) :=
  (cluster_adj_formula_and_sign [0, 1] [2, 4]
    (by norm_num [listMean]) (by intro s hs; fin_cases hs <;> norm_num)).1

/-- One run of the ML Refiner. The sklearn models are external library code,
represented by arbitrary deterministic fit-predict functions of their
`random_state` seed and the standardized data; `standardize` stands for
`StandardScaler().fit_transform` (line 142, seedless). The source constructs
both models with the literal `random_state=42` (lines 145 and 149), so the
ambient random state `globalSeed` — which an unseeded model would draw
from — is never consulted. -/
def apply_ml_refinements_run
    (standardize : List (List ℚ) → List (List ℚ))
    (isoForestFitPredict : ℕ → List (List ℚ) → List Bool)
    (kmeansFitPredict : ℕ → List (List ℚ) → List ℕ)
    (_globalSeed : ℕ)
    (X : List (List ℚ)) (base_risk_score : List ℚ) :
    List Bool × List ℕ × List (Option ℚ) :=
  let X_scaled := standardize X
  let is_anomaly := isoForestFitPredict 42 X_scaled
  let cluster := kmeansFitPredict 42 X_scaled
  (is_anomaly, cluster, cluster_risk_adj cluster base_risk_score)

/-- Claim C9: with the fixed seeds built into the code, two runs of
`apply_ml_refinements` on identical input tables assign identical
`is_anomaly` flags and `cluster` labels to every wallet, whatever the
ambient random states of the two runs were. -/
theorem ml_refinements_deterministic
    (standardize : List (List ℚ) → List (List ℚ))
    (isoForestFitPredict : ℕ → List (List ℚ) → List Bool)
    (kmeansFitPredict : ℕ → List (List ℚ) → List ℕ)
    (g₁ g₂ : ℕ) (X : List (List ℚ)) (base : List ℚ) :
    apply_ml_refinements_run standardize isoForestFitPredict kmeansFitPredict g₁ X base
      = apply_ml_refinements_run standardize isoForestFitPredict kmeansFitPredict g₂ X base := rfl
